import Mathlib

/-!
# Verification of the PrivateTube transcript pipeline and view-state controller

A shallow embedding, in Lean 4, of the transcript acquisition and
normalization pipeline and the view-state controller of the PrivateTube
single-page application, together with proofs and refutations of the
specification claims about them.

The JavaScript/TypeScript sources are embedded as executable Lean
definitions.  Browser collaborators are modelled at their interface:
`DOMParser.parseFromString` followed by `getElementsByTagName("text")` is an
oracle `String → XmlDoc` producing the list of text elements; `fetch` results
are values of `FetchOutcome` (network error, or a status code with a body);
`localStorage` is an association list.  JavaScript numbers are modelled as
`JsNum` (NaN, the two infinities, or an exact rational), with the operations
the sources use (`parseFloat`, `Math.floor`, `%`, `/`, string interpolation,
`padStart`) given faithful definitions.
-/

/-! ## JavaScript string primitives -/

/-- The whitespace characters recognised by JavaScript `trim`, the regex
class used by `\s`, and `split`-relevant handling (ASCII portion). -/
def jsWhitespace (c : Char) : Bool :=
  c = ' ' || c = '\t' || c = '\n' || c = '\r' || c = '\x0b' || c = '\x0c'

/-- `String.prototype.trim` on a character list: whitespace removed from
both ends. -/
def jsTrimChars (cs : List Char) : List Char :=
  ((cs.dropWhile jsWhitespace).reverse.dropWhile jsWhitespace).reverse

/-- `String.prototype.trim`. -/
def jsTrimS (s : String) : String :=
  String.mk (jsTrimChars s.data)

/-- Does `pat` occur at the very start of `hay`? -/
def matchesAt : List Char → List Char → Bool
  | _, [] => true
  | [], _ :: _ => false
  | h :: hs, p :: ps => h = p && matchesAt hs ps

/-- Does `pat` occur anywhere in `hay`?  (JavaScript `String.includes`.) -/
def hasOccur : List Char → List Char → Bool
  | [], pat => matchesAt [] pat
  | h :: t, pat => matchesAt (h :: t) pat || hasOccur t pat

/-- JavaScript `hay.includes(need)`. -/
def strContains (hay need : String) : Bool :=
  hasOccur hay.data need.data

/-- `String.prototype.padStart(n, c)`. -/
def jsPadStart (s : String) (n : Nat) (c : Char) : String :=
  if n ≤ s.length then s else String.mk (List.replicate (n - s.length) c) ++ s

/-- `Array.prototype.join(sep)`: empty array gives the empty string, the
separator goes between consecutive elements. -/
def jsJoin (sep : String) : List String → String
  | [] => ""
  | [x] => x
  | x :: y :: t => x ++ sep ++ jsJoin sep (y :: t)

/-! ## JavaScript numbers -/

/-- A JavaScript number as the sources use them: `NaN`, `Infinity`,
`-Infinity`, or an exact value (every number the sources produce from a
caption payload is exactly representable as a rational). -/
inductive JsNum : Type
  | nan : JsNum
  | inf : JsNum
  | negInf : JsNum
  | num : ℚ → JsNum
deriving DecidableEq, Repr

/-- Numeric value of a decimal digit character. -/
def digitVal (c : Char) : Nat := c.toNat - '0'.toNat

/-- The natural number denoted by a list of decimal digit characters
(the value `parseInt` gives a pure digit string). -/
def digitsToNat (ds : List Char) : Nat :=
  ds.foldl (fun acc c => 10 * acc + digitVal c) 0

/-- Exponent suffix of a JavaScript float literal: `e`/`E`, an optional
sign, then digits; absent or digit-less suffixes contribute exponent 0. -/
def jsFloatExponent (cs : List Char) : Int :=
  match cs with
  | e :: rest =>
    if e = 'e' || e = 'E' then
      let (sgn, ds) : Int × List Char :=
        match rest with
        | '-' :: t => (-1, t)
        | '+' :: t => (1, t)
        | _ => (1, rest)
      let digits := ds.takeWhile Char.isDigit
      if digits = [] then 0 else sgn * (digitsToNat digits : Int)
    else 0
  | [] => 0

/-- The value of a parsed float — integer digits, fraction digits, decimal
exponent — computed as an exact rational.  The numerator and denominator
are assembled in `Nat` arithmetic and divided only when the denominator is
not 1, so that integer attribute values reduce definitionally. -/
def jsFloatValue (intPart fracPart : List Char) (exp : Int) : ℚ :=
  let baseNum : Nat := digitsToNat intPart * 10 ^ fracPart.length + digitsToNat fracPart
  let num : Nat := if 0 ≤ exp then baseNum * 10 ^ exp.toNat else baseNum
  let den : Nat :=
    if 0 ≤ exp then 10 ^ fracPart.length else 10 ^ fracPart.length * 10 ^ (-exp).toNat
  if den = 1 then (num : ℚ) else (num : ℚ) / (den : ℚ)

/-- JavaScript `parseFloat`: leading whitespace skipped, optional sign,
`Infinity`, or digits with optional fraction and exponent; the longest
numeric prefix counts and anything that yields no digits is `NaN`. -/
def jsParseFloat (s : String) : JsNum :=
  let cs := s.data.dropWhile jsWhitespace
  let (neg, cs1) : Bool × List Char :=
    match cs with
    | '-' :: t => (true, t)
    | '+' :: t => (false, t)
    | _ => (false, cs)
  if matchesAt cs1 "Infinity".data then
    if neg then JsNum.negInf else JsNum.inf
  else
    let intPart := cs1.takeWhile Char.isDigit
    let rest1 := cs1.dropWhile Char.isDigit
    let (fracPart, rest2) : List Char × List Char :=
      match rest1 with
      | '.' :: t => (t.takeWhile Char.isDigit, t.dropWhile Char.isDigit)
      | _ => ([], rest1)
    if intPart = [] ∧ fracPart = [] then JsNum.nan
    else
      let mag := jsFloatValue intPart fracPart (jsFloatExponent rest2)
      JsNum.num (if neg then -mag else mag)

/-- The JavaScript expression `x || "0"` on a nullable attribute value:
`null` and the empty string are falsy and replaced by `"0"`. -/
def jsOrDefaultZero : Option String → String
  | none => "0"
  | some s => if s = "" then "0" else s

/-- The JavaScript expression `x || ""` on a nullable `textContent`. -/
def jsOrEmpty : Option String → String
  | none => ""
  | some s => s

/-- Truncation toward zero of a rational (the rounding JavaScript `%` is
built on). -/
def ratTrunc (q : ℚ) : Int := Int.tdiv q.num (q.den : Int)

/-- JavaScript division restricted to a finite non-zero divisor (the only
shape the sources use: `offset / 60`). -/
def jsDiv (a : JsNum) (b : ℚ) : JsNum :=
  match a with
  | JsNum.nan => JsNum.nan
  | JsNum.inf => if 0 < b then JsNum.inf else JsNum.negInf
  | JsNum.negInf => if 0 < b then JsNum.negInf else JsNum.inf
  | JsNum.num q => if b = 0 then JsNum.nan else JsNum.num (q / b)

/-- JavaScript remainder `a % n` for a finite non-zero modulus: the result
keeps the dividend's sign; infinite dividends give `NaN`. -/
def jsMod (a : JsNum) (n : ℚ) : JsNum :=
  match a with
  | JsNum.nan => JsNum.nan
  | JsNum.inf => JsNum.nan
  | JsNum.negInf => JsNum.nan
  | JsNum.num q => if n = 0 then JsNum.nan else JsNum.num (q - n * (ratTrunc (q / n) : ℚ))

/-- JavaScript `Math.floor`. -/
def jsFloor (a : JsNum) : JsNum :=
  match a with
  | JsNum.nan => JsNum.nan
  | JsNum.inf => JsNum.inf
  | JsNum.negInf => JsNum.negInf
  | JsNum.num q => JsNum.num (⌊q⌋ : ℚ)

/-- String interpolation of a JavaScript number.  The sources only
interpolate integers (results of `Math.floor`), `NaN` and infinities; a
non-integral rational is rendered as numerator over denominator. -/
def jsNumToString (a : JsNum) : String :=
  match a with
  | JsNum.nan => "NaN"
  | JsNum.inf => "Infinity"
  | JsNum.negInf => "-Infinity"
  | JsNum.num q =>
    if q.den = 1 then (if q.num < 0 then "-" ++ Nat.repr q.num.natAbs else Nat.repr q.num.natAbs)
    else (if q.num < 0 then "-" ++ Nat.repr q.num.natAbs else Nat.repr q.num.natAbs)
      ++ "/" ++ Nat.repr q.den

/-- Non-strict comparison of JavaScript numbers as a boolean (`<=` in JS):
any comparison with `NaN` is false. -/
def jsLeB (a b : JsNum) : Bool :=
  match a, b with
  | JsNum.nan, _ => false
  | _, JsNum.nan => false
  | JsNum.negInf, _ => true
  | _, JsNum.inf => true
  | JsNum.inf, JsNum.negInf => false
  | JsNum.inf, JsNum.num _ => false
  | JsNum.num _, JsNum.negInf => false
  | JsNum.num x, JsNum.num y => decide (x ≤ y)

/-! ## The transcript data model -/

/-- One caption/transcript fragment, exactly the `TranscriptEntry` record of
the sources: `{ text, duration, offset }`. -/
structure Segment : Type where
  text : String
  duration : JsNum
  offset : JsNum
deriving DecidableEq, Repr

/-- One `<text>` element as the DOM hands it to `parseTranscriptXML`: the
`start` and `dur` attributes (`getAttribute` yields `null` for an absent
attribute) and the element's `textContent`. -/
structure TextElem : Type where
  start : Option String
  dur : Option String
  content : Option String
deriving DecidableEq, Repr

/-- The list `getElementsByTagName("text")` of a parsed XML document. -/
abbrev XmlDoc : Type := List TextElem

/-- `parseTranscriptXML` (identical in `VideoChat.tsx`, `VideoPlayer` and
`Index`): one entry per `<text>` element, `offset` from
`parseFloat(element.getAttribute("start") || "0")`, `duration` from
`parseFloat(element.getAttribute("dur") || "0")`, `text` from
`element.textContent || ""`. -/
def parseTranscriptXML (doc : XmlDoc) : List Segment :=
  doc.map fun el =>
    { text := jsOrEmpty el.content
      duration := jsParseFloat (jsOrDefaultZero el.dur)
      offset := jsParseFloat (jsOrDefaultZero el.start) }

/-! ## The bracket-timestamp plain-text parser

The regex `/[\[\(](\d{1,2}):(\d{2})[\]\)]/` of `parseTranscriptText` is
modelled exactly: at a candidate position an opening `[` or `(` must be
followed by one or two digits (two tried first, backtracking to one), a
colon, exactly two digits, and a closing `]` or `)`; `String.match` finds
the leftmost position where this succeeds.  `String.replace` with the same
pattern plus `\s*` removes that leftmost occurrence together with the
whitespace that follows it. -/

/-- The regex class `\d`: an ASCII decimal digit. -/
def isDigitB (c : Char) : Bool := 48 ≤ c.toNat && c.toNat ≤ 57

/-- Is the character an opening delimiter of the timestamp pattern
(`[\[\(]`)? -/
def tsOpen (c : Char) : Bool := c = '[' || c = '('

/-- Is the character a closing delimiter of the timestamp pattern
(`[\]\)]`)? -/
def tsClose (c : Char) : Bool := c = ']' || c = ')'

/-- One-digit-minutes alternative of the timestamp pattern, tried after the
two-digit alternative fails: digit, colon, digit, digit, closing
delimiter.  Yields `(minutes, seconds, matched length)` counting the
opening delimiter already consumed by the caller. -/
def tsTail1 : List Char → Option (Nat × Nat × Nat)
  | d1 :: ':' :: e1 :: e2 :: k :: _ =>
    if isDigitB d1 && isDigitB e1 && isDigitB e2 && tsClose k then
      some (digitVal d1, 10 * digitVal e1 + digitVal e2, 6)
    else none
  | _ => none

/-- Attempt of the whole timestamp pattern at the head of `cs`: opening
delimiter, one or two digits (two first), colon, two digits, closing
delimiter.  Yields `(minutes, seconds, matched length)`. -/
def tsAt (cs : List Char) : Option (Nat × Nat × Nat) :=
  match cs with
  | o :: rest =>
    if tsOpen o then
      match rest with
      | d1 :: d2 :: ':' :: e1 :: e2 :: k :: _ =>
        if isDigitB d1 && isDigitB d2 && isDigitB e1 && isDigitB e2 && tsClose k then
          some (10 * digitVal d1 + digitVal d2, 10 * digitVal e1 + digitVal e2, 7)
        else tsTail1 rest
      | _ => tsTail1 rest
    else none
  | [] => none

/-- Leftmost match of the timestamp pattern: the prefix length before the
match, then minutes, seconds and matched length. -/
def findTs : List Char → Option (Nat × Nat × Nat × Nat)
  | [] => none
  | c :: cs =>
    match tsAt (c :: cs) with
    | some (m, s, l) => some (0, m, s, l)
    | none =>
      match findTs cs with
      | some (p, m, s, l) => some (p + 1, m, s, l)
      | none => none

/-- The replacement `line.replace(/[\[\(]\d{1,2}:\d{2}[\]\)]\s*/, "")`:
the leftmost occurrence of the pattern, plus the whitespace run after it,
removed; a line without an occurrence is unchanged. -/
def stripFirstTs (cs : List Char) : List Char :=
  match findTs cs with
  | none => cs
  | some (p, _, _, l) => cs.take p ++ (cs.drop (p + l)).dropWhile jsWhitespace

/-- The body of `parseTranscriptText`'s per-line loop: on a regex match,
`offset = minutes*60 + seconds`, `duration = 0`, text the line with the
matched timestamp stripped and trimmed; no match, or empty remaining
text, contributes nothing. -/
def parseLine (cs : List Char) : Option Segment :=
  match findTs cs with
  | none => none
  | some (_, m, s, _) =>
    let textContent := jsTrimChars (stripFirstTs cs)
    if textContent = [] then none
    else some { text := String.mk textContent
                duration := JsNum.num 0
                offset := JsNum.num ((m * 60 + s : Nat) : ℚ) }

/-- JavaScript `text.split("\n")` on a character list: the chunks between
newline characters; the empty text splits into one empty chunk. -/
def splitLines : List Char → List (List Char)
  | [] => [[]]
  | c :: rest =>
    match splitLines rest with
    | [] => [[]]
    | l :: ls => if c = '\n' then [] :: l :: ls else (c :: l) :: ls

/-- The plain-text branch of `parseTranscriptText`: split into lines, one
segment per line whose timestamp pattern matches and whose stripped text is
non-empty. -/
def parsePlainLines (text : String) : List Segment :=
  (splitLines text.data).filterMap parseLine

/-- `parseTranscriptText` (identical in `VideoChat.tsx` and `Index`): a
payload containing the literal `<transcript>` is routed to the XML parser
through the DOM oracle `dp`; anything else goes through the per-line
bracket-timestamp parser. -/
def parseTranscriptText (dp : String → XmlDoc) (text : String) : List Segment :=
  if strContains text "<transcript>" then parseTranscriptXML (dp text)
  else parsePlainLines text

/-! ## Videos, credentials, local storage -/

/-- The `VideoData` record of `VideoCard.tsx`. -/
structure VideoData : Type where
  id : String
  title : String
  thumbnail : String
  description : String
  summary : Option String := none
deriving DecidableEq, Repr

/-- The `apiKeys` state of `Index`. -/
structure ApiKeys : Type where
  youtube : String
  gemini : String
deriving DecidableEq, Repr

/-- `localStorage` as an association list of string keys and values. -/
abbrev Store : Type := List (String × String)

/-- `localStorage.setItem`: overwrite an existing key or append a new one. -/
def setItem : Store → String → String → Store
  | [], k, v => [(k, v)]
  | (k0, v0) :: t, k, v => if k0 = k then (k, v) :: t else (k0, v0) :: setItem t k v

/-- `localStorage.getItem`: `null` (here `none`) for an absent key. -/
def getItem : Store → String → Option String
  | [], _ => none
  | (k0, v0) :: t, k => if k0 = k then some v0 else getItem t k

/-! ## Network outcomes -/

/-- The outcome of one `fetch`: a network-level rejection (the promise
throws), or a response carrying an HTTP status and a body. -/
inductive FetchOutcome (α : Type) : Type
  | netError : FetchOutcome α
  | resp : Nat → α → FetchOutcome α

/-- `Response.ok`: status in the 2xx range. -/
def okStatus (s : Nat) : Bool := 200 ≤ s && s ≤ 299

/-- The remote answers one transcript-acquisition attempt can observe: the
captions-listing call (body: the `items` field, a list of caption-track
ids, or `none` when the field is absent), the caption-track content call,
the public timed-text call, and the DOM parser used on XML bodies. -/
structure AcqEnv : Type where
  captions : FetchOutcome (Option (List String))
  track : FetchOutcome String
  timedtext : FetchOutcome String
  dp : String → XmlDoc

/-! ## The view-state controller (`Index`, first variant) -/

/-- The `AppView` union of `Index`. -/
inductive AppView : Type
  | setup | search | player | chat
deriving DecidableEq, Repr

/-- The state hooks of the `Index` component. -/
structure IndexState : Type where
  currentView : AppView
  apiKeys : Option ApiKeys
  videos : List VideoData
  selectedVideo : Option VideoData
  videoTranscript : List Segment
  isLoading : Bool
deriving Repr

/-- The `Index` state at mount: `setup` view, nothing selected. -/
def initialIndexState : IndexState :=
  { currentView := AppView.setup
    apiKeys := none
    videos := []
    selectedVideo := none
    videoTranscript := []
    isLoading := false }

/-- `handleKeysSet`: store both keys in component state and move to the
search view. -/
def handleKeysSet (youtubeKey geminiKey : String) (σ : IndexState) : IndexState :=
  { σ with apiKeys := some ⟨youtubeKey, geminiKey⟩, currentView := AppView.search }

/-- `handlePlayVideo`: select the video, reset the transcript to empty
(the source comments this line "Reset transcript when switching videos"),
and show the player. -/
def handlePlayVideo (v : VideoData) (σ : IndexState) : IndexState :=
  { σ with selectedVideo := some v
           videoTranscript := []
           currentView := AppView.player }

/-- `handleBackToSearch`: back to the search view, clearing the selected
video and the transcript. -/
def handleBackToSearch (σ : IndexState) : IndexState :=
  { σ with currentView := AppView.search
           selectedVideo := none
           videoTranscript := [] }

/-- `handleTranscriptUpdate` (the player's `onTranscriptUpdate` callback):
overwrite the controller's transcript. -/
def handleTranscriptUpdate (t : List Segment) (σ : IndexState) : IndexState :=
  { σ with videoTranscript := t }

/-- What `handleChatWithVideo`'s awaited tail eventually writes through
`setVideoTranscript`, given the network's answers: `some` segments exactly
on the paths where the source calls `setVideoTranscript`, `none` when the
attempt ends without a write.  Also records which endpoints were queried.

Structure of the source: the captions listing and the caption-track fetch
sit in a `try`; the timed-text fallback runs only in its `catch`, i.e. only
when one of those fetches rejects at the network level — an ok listing
with zero tracks, a non-2xx listing, or a non-2xx track response all end
the attempt silently. -/
def chatAcquireTail (env : AcqEnv) :
    Option (List Segment) × Bool × Bool :=
  match env.captions with
  | FetchOutcome.netError =>
    match env.timedtext with
    | FetchOutcome.netError => (none, true, true)
    | FetchOutcome.resp st body =>
      (if okStatus st then some (parseTranscriptXML (env.dp body)) else none, true, true)
  | FetchOutcome.resp st items =>
    if okStatus st then
      match items with
      | some (_ :: _) =>
        match env.track with
        | FetchOutcome.netError =>
          match env.timedtext with
          | FetchOutcome.netError => (none, true, true)
          | FetchOutcome.resp st2 body =>
            (if okStatus st2 then some (parseTranscriptXML (env.dp body)) else none, true, true)
        | FetchOutcome.resp st2 body =>
          (if okStatus st2 then some (parseTranscriptText env.dp body) else none, true, false)
      | _ => (none, true, false)
    else (none, true, false)

/-- An acquisition `handleChatWithVideo` has started but whose awaited tail
has not yet run: the video it was issued for and the write it will make. -/
structure PendingWrite : Type where
  forVideo : String
  result : Option (List Segment)
deriving Repr

/-- The synchronous prefix of `handleChatWithVideo` — select the video and
show the chat view, with NO reset of `videoTranscript` — plus, when a
YouTube key is present (`apiKeys?.youtube` truthy), the start of the
asynchronous acquisition, recorded as a pending write. -/
def handleChatWithVideo (v : VideoData) (env : AcqEnv)
    (σ : IndexState) (pending : List PendingWrite) :
    IndexState × List PendingWrite :=
  let σ1 := { σ with selectedVideo := some v, currentView := AppView.chat }
  match σ.apiKeys with
  | none => (σ1, pending)
  | some keys =>
    if keys.youtube = "" then (σ1, pending)
    else (σ1, pending ++ [⟨v.id, (chatAcquireTail env).1⟩])

/-- A user action or asynchronous resolution the controller reacts to. -/
inductive AppEvent : Type
  | keysSet (youtubeKey geminiKey : String)
  | playVideo (v : VideoData)
  | chatWithVideo (v : VideoData) (env : AcqEnv)
  | backToSearch
  | transcriptUpdate (t : List Segment)
  | resolve (i : Nat)

/-- One controller step.  `resolve i` runs the `i`-th in-flight
acquisition's write: the source applies it unconditionally — there is no
check that the write's video is still the selected one. -/
def stepApp (σp : IndexState × List PendingWrite) (e : AppEvent) :
    IndexState × List PendingWrite :=
  match e with
  | AppEvent.keysSet yt gm => (handleKeysSet yt gm σp.1, σp.2)
  | AppEvent.playVideo v => (handlePlayVideo v σp.1, σp.2)
  | AppEvent.chatWithVideo v env => handleChatWithVideo v env σp.1 σp.2
  | AppEvent.backToSearch => (handleBackToSearch σp.1, σp.2)
  | AppEvent.transcriptUpdate t => (handleTranscriptUpdate t σp.1, σp.2)
  | AppEvent.resolve i =>
    match σp.2.get? i with
    | none => σp
    | some w =>
      (match w.result with
       | some t => handleTranscriptUpdate t σp.1
       | none => σp.1,
       σp.2.eraseIdx i)

/-- A run of the controller from a state through a list of events. -/
def runApp (σp : IndexState × List PendingWrite) (es : List AppEvent) :
    IndexState × List PendingWrite :=
  es.foldl stepApp σp

/-! ## Credential setup (`ApiKeySetup.tsx`) -/

/-- The result of submitting the setup form: the storage contents, the
controller state after the `onKeysSet` callback (when invoked), and the
toast shown. -/
structure SubmitResult : Type where
  store : Store
  app : IndexState
  toast : String
deriving Repr

/-- `handleSubmit` of `ApiKeySetup` composed with the `onKeysSet` handler
of `Index`: both keys must be non-empty after trimming, otherwise a
validation toast is shown and nothing else happens; on success both
trimmed keys are written to `localStorage` and `handleKeysSet` moves the
view to `search`. -/
def handleSubmit (youtubeKey geminiKey : String) (store : Store) (σ : IndexState) :
    SubmitResult :=
  if jsTrimS youtubeKey = "" ∨ jsTrimS geminiKey = "" then
    ⟨store, σ, "Please enter both YouTube and Gemini API keys."⟩
  else
    ⟨setItem (setItem store "youtube_api_key" (jsTrimS youtubeKey))
        "gemini_api_key" (jsTrimS geminiKey),
      handleKeysSet (jsTrimS youtubeKey) (jsTrimS geminiKey) σ,
      "Your API keys have been securely stored locally."⟩

/-! ## The chat screen's transcript loader (`VideoChat.loadTranscript`) -/

/-- The toasts `loadTranscript` can show. -/
inductive LoadToast : Type
  | apiSuccess | fallbackSuccess | failure
deriving DecidableEq, Repr

/-- What one call of `loadTranscript` did: the `currentTranscript` state
after the call, which endpoints were queried (the captions listing with the
track fetch counts as method 1, the public timed-text endpoint as
method 2), whether the player-embed extraction was invoked (no code in
`loadTranscript` ever invokes it), and the toast shown. -/
structure LoadResult : Type where
  transcript : List Segment
  triedCaptions : Bool
  triedTimedtext : Bool
  triedEmbedExtract : Bool
  toast : Option LoadToast
deriving Repr

/-- `loadTranscript` of `VideoChat.tsx`.  A non-empty `currentTranscript`
returns at once.  Method 1 runs only when a YouTube key is stored (and
truthy); a network error, a non-2xx listing, an absent or empty `items`
array, or a non-2xx track response all fall through to method 2.  Method 2
returning non-2xx throws, and the surrounding catch shows the failure toast
— no further method is attempted and the transcript stays empty. -/
def loadTranscript (currentTranscript : List Segment) (youtubeKey : Option String)
    (env : AcqEnv) : LoadResult :=
  if currentTranscript ≠ [] then ⟨currentTranscript, false, false, false, none⟩
  else
    let viaTimedtext : Bool → LoadResult := fun tried1 =>
      match env.timedtext with
      | FetchOutcome.netError => ⟨[], tried1, true, false, some LoadToast.failure⟩
      | FetchOutcome.resp st body =>
        if okStatus st then
          ⟨parseTranscriptXML (env.dp body), tried1, true, false, some LoadToast.fallbackSuccess⟩
        else ⟨[], tried1, true, false, some LoadToast.failure⟩
    match youtubeKey with
    | none => viaTimedtext false
    | some k =>
      if k = "" then viaTimedtext false
      else
        match env.captions with
        | FetchOutcome.netError => viaTimedtext true
        | FetchOutcome.resp st items =>
          if okStatus st then
            match items with
            | some (_ :: _) =>
              match env.track with
              | FetchOutcome.netError => viaTimedtext true
              | FetchOutcome.resp st2 body =>
                if okStatus st2 then
                  ⟨parseTranscriptText env.dp body, true, false, false, some LoadToast.apiSuccess⟩
                else viaTimedtext true
            | _ => viaTimedtext true
          else viaTimedtext true

/-! ## The player's transcript fetch (`VideoPlayer.fetchTranscript`) -/

/-- `extractTranscriptFromPlayer`: the player-embed fallback is a stub —
whether or not an embedded player iframe is reachable, every path of the
source returns the empty list (cross-origin restrictions). -/
def extractTranscriptFromPlayer (hasIframe : Bool) : List Segment :=
  if hasIframe then [] else []

/-- What one call of `fetchTranscript` did: the `setTranscript` write, if
any, which methods ran, and the toast shown. -/
structure PlayerFetchResult : Type where
  transcript : Option (List Segment)
  triedTimedtext : Bool
  triedEmbedExtract : Bool
  toast : Option LoadToast
deriving Repr

/-- `fetchTranscript` of `VideoPlayer`: the public timed-text endpoint
first; on a non-2xx response the player-embed extraction is attempted, and
its (always empty) result makes the call throw into the catch, which shows
the failure toast. -/
def fetchTranscript (hasIframe : Bool) (timedtext : FetchOutcome String)
    (dp : String → XmlDoc) : PlayerFetchResult :=
  match timedtext with
  | FetchOutcome.netError => ⟨none, true, false, some LoadToast.failure⟩
  | FetchOutcome.resp st body =>
    if okStatus st then
      ⟨some (parseTranscriptXML (dp body)), true, false, some LoadToast.fallbackSuccess⟩
    else
      let fallbackTranscript := extractTranscriptFromPlayer hasIframe
      if fallbackTranscript.length > 0 then
        ⟨some fallbackTranscript, true, true, some LoadToast.fallbackSuccess⟩
      else ⟨none, true, true, some LoadToast.failure⟩

/-! ## Prompt assembly and the chat request (`VideoChat.sendMessage`) -/

/-- One part of a Gemini request or response. -/
structure GeminiPart : Type where
  text : String
deriving DecidableEq, Repr

/-- One content turn of a Gemini request. -/
structure GeminiContent : Type where
  parts : List GeminiPart
deriving DecidableEq, Repr

/-- The JSON body `sendMessage` posts to the chat-completion endpoint. -/
structure GeminiRequest : Type where
  contents : List GeminiContent
deriving DecidableEq, Repr

/-- The sender tag of a chat message. -/
inductive Sender : Type
  | user | ai
deriving DecidableEq, Repr

/-- The `Message` record of `VideoChat.tsx` (the timestamp field is
irrelevant to every claim and omitted). -/
structure ChatMessage : Type where
  id : String
  content : String
  sender : Sender
deriving DecidableEq, Repr

/-- The state hooks of `VideoChat` that `sendMessage` reads and writes. -/
structure ChatState : Type where
  messages : List ChatMessage
  input : String
  isLoading : Bool
  currentTranscript : List Segment
deriving Repr

/-- The context block of `sendMessage`: the video title and description
always; when the current transcript is non-empty, its texts joined with
single spaces appended under the `Video Transcript` label. -/
def buildContext (video : VideoData) (t : List Segment) : String :=
  let base := "YouTube Video: \"" ++ video.title ++ "\"\nDescription: " ++ video.description
  if t.length > 0 then
    base ++ "\n\nVideo Transcript: " ++ jsJoin " " (t.map Segment.text)
  else base

/-- The full single-turn prompt `sendMessage` builds: fixed instructions,
the context block, and the trimmed user question. -/
def buildPrompt (video : VideoData) (t : List Segment) (question : String) : String :=
  "You are an AI assistant helping someone understand a YouTube video. \n\nContext:\n"
    ++ buildContext video t
    ++ "\n\nUser Question: " ++ question
    ++ "\n\nPlease provide a helpful, accurate response based on the video content. "
    ++ "If the question is about specific details and you have transcript access, "
    ++ "use that information. If not, answer based on the title and description. "
    ++ "Be conversational and helpful."

/-- The status-specific part of the error thrown for a non-2xx
chat-completion response. -/
def chatErrorBase (status : Nat) : String :=
  if status = 400 then "Invalid request to Gemini API. Please check your API key format."
  else if status = 401 then "Unauthorized. Your Gemini API key is invalid or expired."
  else if status = 403 then "Access denied. Your Gemini API key may not have the required permissions."
  else if status = 429 then "Rate limit exceeded. Please wait a moment and try again."
  else if status = 500 then "Gemini API server error. Please try again later."
  else "Failed to get AI response"

/-- The message of the error `sendMessage` throws on a non-2xx response:
the status-specific text with the status appended. -/
def chatThrownMessage (status : Nat) : String :=
  chatErrorBase status ++ " (Status: " ++ Nat.repr status ++ ")"

/-- The catch block of `sendMessage`: an error message mentioning
`API key` is shown as is, one mentioning `fetch` becomes the network
message, anything else is shown as is. -/
def chatCatchDescription (errMsg : String) : String :=
  if strContains errMsg "API key" then errMsg
  else if strContains errMsg "fetch" then
    "Network error. Please check your internet connection."
  else errMsg

/-- The apostrophe character (U+0027). -/
def apos : Char := Char.ofNat 39

/-- The fallback reply used when the response carries no candidate text. -/
def defaultAiReply : String :=
  "I couldn" ++ String.mk [apos] ++ "t generate a response. Please try again."

/-- `sendMessage` of `VideoChat.tsx`: guard on empty input or an in-flight
request; append the user message; require a stored, non-empty Gemini key;
post the single-turn request; on a 2xx response append the AI message, on
a non-2xx response throw the status-mapped error into the catch, whose
description is surfaced as a toast.  Returns the new chat state, the
request actually posted (if the code reached the `fetch`), and the error
toast description (if one was shown).  `newId` and `newId2` stand for the
two `Date.now()`-derived message ids; `env` is the network's answer, its
body the extracted `candidates[0].content.parts[0].text` when present. -/
def sendMessage (st : ChatState) (video : VideoData) (geminiKey : Option String)
    (env : FetchOutcome (Option String)) (newId newId2 : String) :
    ChatState × Option GeminiRequest × Option String :=
  if jsTrimS st.input = "" ∨ st.isLoading then (st, none, none)
  else
    let userMessage : ChatMessage := ⟨newId, jsTrimS st.input, Sender.user⟩
    let st1 : ChatState :=
      { st with messages := st.messages ++ [userMessage], input := "", isLoading := true }
    match geminiKey with
    | none =>
      ({ st1 with isLoading := false }, none,
        some (chatCatchDescription
          "Gemini API key not found in localStorage. Please go back to setup and enter your API key."))
    | some k =>
      if jsTrimS k = "" then
        ({ st1 with isLoading := false }, none,
          some (chatCatchDescription
            "Gemini API key is empty. Please go back to setup and enter a valid API key."))
      else
        let req : GeminiRequest :=
          ⟨[⟨[⟨buildPrompt video st.currentTranscript (jsTrimS st.input)⟩]⟩]⟩
        match env with
        | FetchOutcome.netError =>
          ({ st1 with isLoading := false }, some req,
            some (chatCatchDescription "Failed to fetch"))
        | FetchOutcome.resp status body =>
          if okStatus status then
            let aiResponse := match body with
              | some t => t
              | none => defaultAiReply
            ({ st1 with messages := st1.messages ++ [⟨newId2, aiResponse, Sender.ai⟩]
                        isLoading := false },
              some req, none)
          else
            ({ st1 with isLoading := false }, some req,
              some (chatCatchDescription (chatThrownMessage status)))

/-! ## Notes export (`VideoPlayer.createNoteContent` and `formatTime`) -/

/-- `formatTime` of `VideoPlayer`: minutes, a colon, and the two-digit
padded seconds. -/
def formatTime (seconds : JsNum) : String :=
  let minutes := jsFloor (jsDiv seconds 60)
  let remainingSeconds := jsFloor (jsMod seconds 60)
  jsNumToString minutes ++ ":" ++ jsPadStart (jsNumToString remainingSeconds) 2 '0'

/-- The transcript lines `createNoteContent`'s `forEach` loop appends to
the exported file, with the per-entry timestamp computed inline exactly as
the source writes it. -/
def noteTranscriptBody (transcript : List Segment) : String :=
  transcript.foldl (fun content entry =>
    let minutes := jsFloor (jsDiv entry.offset 60)
    let seconds := jsFloor (jsMod entry.offset 60)
    let timestamp := jsNumToString minutes ++ ":" ++ jsPadStart (jsNumToString seconds) 2 '0'
    content ++ "[" ++ timestamp ++ "] " ++ entry.text ++ "\n") ""

/-- `createNoteContent` of `VideoPlayer`: header with metadata, the notes
section when notes are non-blank, the transcript section when the
transcript is non-empty, and the generator footer. -/
def createNoteContent (video : VideoData) (notes currentDate : String)
    (transcript : List Segment) : String :=
  let videoUrl := "https://www.youtube.com/watch?v=" ++ video.id
  let header := "NOTES ON YOUTUBE VIDEO\n================================\n\nVideo Title: "
    ++ video.title ++ "\nVideo URL: " ++ videoUrl ++ "\nDate Notes Taken: " ++ currentDate
    ++ "\n\n================================\n\n"
  let notesSection :=
    if jsTrimS notes = "" then ""
    else "YOUR NOTES:\n" ++ notes ++ "\n\n================================\n\n"
  let transcriptSection :=
    if transcript.length > 0 then
      "VIDEO TRANSCRIPT:\n" ++ noteTranscriptBody transcript ++ "\n================================\n"
    else ""
  header ++ notesSection ++ transcriptSection ++ "Generated by PrivateTube AI"

/-! ## Offset order helpers -/

/-- Is a segment list in non-decreasing `offset` order (JavaScript
comparison, so any `NaN` breaks the chain)? -/
def nondecreasingOffsets : List Segment → Bool
  | [] => true
  | [_] => true
  | a :: b :: t => jsLeB a.offset b.offset && nondecreasingOffsets (b :: t)

/-- The start values of a document's text elements, as the XML
normalizer parses them, in document order. -/
def xmlStarts (doc : XmlDoc) : List JsNum :=
  doc.map fun el => jsParseFloat (jsOrDefaultZero el.start)

/-- Is a list of JavaScript numbers a non-decreasing chain? -/
def chainLeB : List JsNum → Bool
  | [] => true
  | [_] => true
  | a :: b :: t => jsLeB a b && chainLeB (b :: t)

/-! ## Specification-side reference definitions

These definitions transcribe claim wording (not source code) so that a
source behaviour can be compared against the claimed behaviour. -/

/-- The first index of the line at which the timestamp pattern matches —
the characterization of `findTs` as a leftmost search. -/
def tsFirstIndex (cs : List Char) : Option Nat :=
  (List.range cs.length).find? fun i => (tsAt (cs.drop i)).isSome

/-- Per-line behaviour of the plain-text parser as the amended claim
states it: the timestamp is recognised at the first position anywhere in
the line where the (loosely delimited) pattern matches; the text is the
line with that occurrence and the following whitespace removed, trimmed;
empty remaining text drops the line. -/
def amendedParseLine (cs : List Char) : Option Segment :=
  match tsFirstIndex cs with
  | none => none
  | some i =>
    match tsAt (cs.drop i) with
    | none => none
    | some (m, s, l) =>
      let t := jsTrimChars (cs.take i ++ (cs.drop (i + l)).dropWhile jsWhitespace)
      if t = [] then none
      else some { text := String.mk t
                  duration := JsNum.num 0
                  offset := JsNum.num ((m * 60 + s : Nat) : ℚ) }

/-- A LEADING timestamp of the exact shape `[MM:SS]` or `(MM:SS)` with
matching delimiters, as the claim words it: minutes of one or two digits,
seconds of exactly two, at the very start of the line.  Yields minutes,
seconds and the rest of the line. -/
def claimLeadingTimestamp : List Char → Option (Nat × Nat × List Char)
  | '[' :: d1 :: d2 :: ':' :: e1 :: e2 :: ']' :: rest =>
    if isDigitB d1 && isDigitB d2 && isDigitB e1 && isDigitB e2 then
      some (10 * digitVal d1 + digitVal d2, 10 * digitVal e1 + digitVal e2, rest)
    else none
  | '[' :: d1 :: ':' :: e1 :: e2 :: ']' :: rest =>
    if isDigitB d1 && isDigitB e1 && isDigitB e2 then
      some (digitVal d1, 10 * digitVal e1 + digitVal e2, rest)
    else none
  | '(' :: d1 :: d2 :: ':' :: e1 :: e2 :: ')' :: rest =>
    if isDigitB d1 && isDigitB d2 && isDigitB e1 && isDigitB e2 then
      some (10 * digitVal d1 + digitVal d2, 10 * digitVal e1 + digitVal e2, rest)
    else none
  | '(' :: d1 :: ':' :: e1 :: e2 :: ')' :: rest =>
    if isDigitB d1 && isDigitB e1 && isDigitB e2 then
      some (digitVal d1, 10 * digitVal e1 + digitVal e2, rest)
    else none
  | _ => none

/-- Per-line behaviour exactly as claim C4 words it: a segment for a line
with a leading well-formed timestamp and non-empty remaining text, nothing
for any other line. -/
def claimParseLine (cs : List Char) : Option Segment :=
  match claimLeadingTimestamp cs with
  | none => none
  | some (m, s, rest) =>
    let t := jsTrimChars rest
    if t = [] then none
    else some { text := String.mk t
                duration := JsNum.num 0
                offset := JsNum.num ((m * 60 + s : Nat) : ℚ) }

/-- The plain-text parser as claim C4 words it. -/
def parseTranscriptTextClaim (text : String) : List Segment :=
  (splitLines text.data).filterMap claimParseLine

/-! ## Concrete scenario data -/

/-- A first concrete video. -/
def videoA : VideoData := ⟨"vidA", "Video A", "thumbA", "first video", none⟩

/-- A second concrete video, distinct from `videoA`. -/
def videoB : VideoData := ⟨"vidB", "Video B", "thumbB", "second video", none⟩

/-- A network environment in which `videoA`'s acquisition fully succeeds
through the captions listing and track fetch. -/
def envA : AcqEnv :=
  ⟨FetchOutcome.resp 200 (some ["capA"]),
    FetchOutcome.resp 200 "[0:05] alpha content",
    FetchOutcome.netError, fun _ => []⟩

/-- A network environment in which `videoB`'s captions listing succeeds
with zero caption tracks, so nothing is ever written. -/
def envB : AcqEnv :=
  ⟨FetchOutcome.resp 200 (some []), FetchOutcome.netError,
    FetchOutcome.netError, fun _ => []⟩

/-- The segments `envA` delivers for `videoA`. -/
def segsA : List Segment := [⟨"alpha content", JsNum.num 0, JsNum.num 5⟩]

/-- The controller state after keys were stored: search view, no
selection. -/
def searchState : IndexState :=
  { initialIndexState with
      apiKeys := some ⟨"ytKey", "gmKey"⟩
      currentView := AppView.search }

/-- An environment whose captions listing is 2xx with zero tracks and
whose timed-text answer is non-2xx. -/
def envZeroTracksThen404 : AcqEnv :=
  ⟨FetchOutcome.resp 200 (some []), FetchOutcome.netError,
    FetchOutcome.resp 404 "not found", fun _ => []⟩

/-! ## Helper lemmas -/

theorem getItem_setItem_self (st : Store) (k v : String) :
    getItem (setItem st k v) k = some v := by
  induction st with
  | nil => simp [setItem, getItem]
  | cons p t ih =>
    by_cases h : p.1 = k
    · simp [setItem, h, getItem]
    · obtain ⟨k0, v0⟩ := p
      simp only at h
      simp [setItem, h, getItem, ih]

theorem getItem_setItem_other (st : Store) (k k2 v : String) (hne : k ≠ k2) :
    getItem (setItem st k v) k2 = getItem st k2 := by
  induction st with
  | nil => simp [setItem, getItem, hne]
  | cons p t ih =>
    obtain ⟨k0, v0⟩ := p
    by_cases h : k0 = k
    · simp [setItem, h, getItem, hne]
    · simp [setItem, h, getItem, ih]

theorem jsJoin_eq_intersperse (sep : String) (l : List String) :
    jsJoin sep l = String.join (List.intersperse sep l) := by
  induction l with
  | nil =>
    ext1
    simp [jsJoin]
  | cons x t ih =>
    cases t with
    | nil =>
      ext1
      simp [jsJoin]
    | cons y t2 =>
      simp only [jsJoin]
      rw [ih]
      ext1
      simp [List.intersperse]

theorem noteTranscriptBody_foldl (t : List Segment) (acc : String) :
    t.foldl (fun content entry =>
      let minutes := jsFloor (jsDiv entry.offset 60)
      let seconds := jsFloor (jsMod entry.offset 60)
      let timestamp := jsNumToString minutes ++ ":" ++ jsPadStart (jsNumToString seconds) 2 '0'
      content ++ "[" ++ timestamp ++ "] " ++ entry.text ++ "\n") acc
    = acc ++ String.join (t.map fun entry =>
        "[" ++ formatTime entry.offset ++ "] " ++ entry.text ++ "\n") := by
  induction t generalizing acc with
  | nil =>
    ext1
    simp
  | cons e t ih =>
    simp only [List.foldl, List.map]
    rw [ih]
    ext1
    simp [formatTime]

/-! ## Claim theorems -/

/-- C6: for every transcript produced by the XML parser, the transcript
lines written into the exported notes file by `createNoteContent`'s loop
are exactly the lines `[formatTime(offset)] text`, one per segment in
sequence order. -/
theorem exportRoundTrip (doc : XmlDoc) :
    noteTranscriptBody (parseTranscriptXML doc)
      = String.join ((parseTranscriptXML doc).map fun entry =>
          "[" ++ formatTime entry.offset ++ "] " ++ entry.text ++ "\n") := by
  have h := noteTranscriptBody_foldl (parseTranscriptXML doc) ""
  rw [noteTranscriptBody, h]
  ext1
  simp

/-- C5: the setup screen moves to the search view exactly when both
submitted keys are non-empty after trimming, in which case both trimmed
values are written to the store and retrievable; otherwise the validation
toast is shown and neither the controller state nor the store changes. -/
theorem setupSubmitSpec (youtubeKey geminiKey : String) (store : Store) (σ : IndexState)
    (hview : σ.currentView = AppView.setup) :
    ((handleSubmit youtubeKey geminiKey store σ).app.currentView = AppView.search
      ↔ (jsTrimS youtubeKey ≠ "" ∧ jsTrimS geminiKey ≠ ""))
    ∧ (jsTrimS youtubeKey ≠ "" → jsTrimS geminiKey ≠ "" →
        getItem (handleSubmit youtubeKey geminiKey store σ).store "youtube_api_key"
            = some (jsTrimS youtubeKey)
        ∧ getItem (handleSubmit youtubeKey geminiKey store σ).store "gemini_api_key"
            = some (jsTrimS geminiKey))
    ∧ ((jsTrimS youtubeKey = "" ∨ jsTrimS geminiKey = "") →
        (handleSubmit youtubeKey geminiKey store σ).app = σ
        ∧ (handleSubmit youtubeKey geminiKey store σ).store = store
        ∧ (handleSubmit youtubeKey geminiKey store σ).toast
            = "Please enter both YouTube and Gemini API keys.") := by
  by_cases hcase : jsTrimS youtubeKey = "" ∨ jsTrimS geminiKey = ""
  · refine ⟨?_, ?_, ?_⟩
    · simp only [handleSubmit, if_pos hcase]
      constructor
      · intro h
        rw [hview] at h
        exact absurd h (by simp)
      · intro ⟨h1, h2⟩
        exact absurd hcase (by simp [h1, h2])
    · intro h1 h2
      exact absurd hcase (by simp [h1, h2])
    · intro _
      simp [handleSubmit, if_pos hcase]
  · push_neg at hcase
    obtain ⟨h1, h2⟩ := hcase
    have hor : ¬ (jsTrimS youtubeKey = "" ∨ jsTrimS geminiKey = "") := by simp [h1, h2]
    refine ⟨?_, ?_, ?_⟩
    · simp [handleSubmit, if_neg hor, handleKeysSet, h1, h2]
    · intro _ _
      constructor
      · simp only [handleSubmit, if_neg hor]
        rw [getItem_setItem_other _ _ _ _ (by decide), getItem_setItem_self]
      · simp only [handleSubmit, if_neg hor]
        rw [getItem_setItem_self]
    · intro h
      exact absurd h hor

/-- C5 witness: the two end-to-end scenarios of the specification at
concrete inputs. -/
theorem setupSubmitSpecWitness :
    ((handleSubmit "yt123" "gm456" [] initialIndexState).app.currentView = AppView.search)
    ∧ getItem (handleSubmit "yt123" "gm456" [] initialIndexState).store "youtube_api_key"
        = some "yt123"
    ∧ getItem (handleSubmit "yt123" "gm456" [] initialIndexState).store "gemini_api_key"
        = some "gm456"
    ∧ (handleSubmit "" "" [] initialIndexState).app = initialIndexState
    ∧ (handleSubmit "" "" [] initialIndexState).toast
        = "Please enter both YouTube and Gemini API keys." := by
  have hfull := setupSubmitSpec "yt123" "gm456" [] initialIndexState rfl
  have hempty := setupSubmitSpec "" "" [] initialIndexState rfl
  have hv : jsTrimS "yt123" = "yt123" := by decide
  have hg : jsTrimS "gm456" = "gm456" := by decide
  refine ⟨hfull.1.mpr ⟨by decide, by decide⟩, ?_, ?_, ?_, ?_⟩
  · have := (hfull.2.1 (by decide) (by decide)).1
    rwa [hv] at this
  · have := (hfull.2.1 (by decide) (by decide)).2
    rwa [hg] at this
  · exact (hempty.2.2 (Or.inl (by decide))).1
  · exact (hempty.2.2 (Or.inl (by decide))).2.2

/-- C1 (code bug): entering the chat screen never resets the transcript —
`handleChatWithVideo` sets the selected video and the view but performs no
`setVideoTranscript([])` — and the unguarded asynchronous write lets a
reachable run end with `videoB` selected on the chat view while the
transcript holds the segments acquired for `videoA`.  The run: chat on A
(acquisition for A in flight), back, chat on B (B's listing has zero
tracks), then A's acquisition resolves. -/
theorem staleTranscriptChatTrace :
    (runApp (searchState, []) [AppEvent.chatWithVideo videoA envA,
        AppEvent.backToSearch, AppEvent.chatWithVideo videoB envB,
        AppEvent.resolve 0]).1.currentView = AppView.chat
    ∧ (runApp (searchState, []) [AppEvent.chatWithVideo videoA envA,
        AppEvent.backToSearch, AppEvent.chatWithVideo videoB envB,
        AppEvent.resolve 0]).1.selectedVideo = some videoB
    ∧ (runApp (searchState, []) [AppEvent.chatWithVideo videoA envA,
        AppEvent.backToSearch, AppEvent.chatWithVideo videoB envB,
        AppEvent.resolve 0]).1.videoTranscript = segsA
    ∧ (chatAcquireTail envA).1 = some segsA
    ∧ (chatAcquireTail envB).1 = none
    ∧ (handleChatWithVideo videoB envB
        { searchState with videoTranscript := segsA } []).1.videoTranscript = segsA
    ∧ videoA.id ≠ videoB.id
    ∧ segsA ≠ [] := by
  refine ⟨rfl, rfl, ?_, ?_, rfl, rfl, by decide, by decide⟩
  · show (runApp _ _).1.videoTranscript = segsA
    rfl
  · show (chatAcquireTail envA).1 = some segsA
    rfl

/-- C3 counterexample: a `<text>` element with a non-numeric `start`
attribute and empty text yields a segment that is kept (not dropped) and
whose offset is `NaN` rather than the claimed default `0`. -/
theorem xmlNormalizerCounterexample :
    parseTranscriptXML [⟨some "abc", none, some ""⟩]
        = [{ text := "", duration := JsNum.num 0, offset := JsNum.nan }]
    ∧ (¬ ∀ s ∈ parseTranscriptXML [⟨some "abc", none, some ""⟩], s.text ≠ "")
    ∧ (¬ ∀ s ∈ parseTranscriptXML [⟨some "abc", none, some ""⟩],
          s.offset = JsNum.num 0) := by
  refine ⟨by decide, ?_, ?_⟩
  · intro h
    exact h { text := "", duration := JsNum.num 0, offset := JsNum.nan } (by decide) rfl
  · intro h
    have := h { text := "", duration := JsNum.num 0, offset := JsNum.nan } (by decide)
    exact absurd this (by decide)

/-- C8 counterexample: the XML normalizer performs no sorting, so a
payload whose fragments carry decreasing start values yields a transcript
whose offsets are not in non-decreasing order. -/
theorem offsetsOrderCounterexample :
    nondecreasingOffsets (parseTranscriptXML
      [⟨some "10", none, some "a"⟩, ⟨some "5", none, some "b"⟩]) = false := by
  decide

/-- C4 counterexample: the regex of `parseTranscriptText` does not require
matching delimiters nor a leading position — `"[1:05) hi"` (mismatched
pair) and `"say [1:05] hi"` (mid-line timestamp) both yield a segment,
while the claim's reading of the shape and position yields none. -/
theorem textTimestampCounterexample :
    parsePlainLines "[1:05) hi"
        = [{ text := "hi", duration := JsNum.num 0, offset := JsNum.num 65 }]
    ∧ parseTranscriptTextClaim "[1:05) hi" = []
    ∧ parsePlainLines "say [1:05] hi"
        = [{ text := "say hi", duration := JsNum.num 0, offset := JsNum.num 65 }]
    ∧ parseTranscriptTextClaim "say [1:05] hi" = [] := by
  refine ⟨by decide, by decide, by decide, by decide⟩

/-- C2 counterexample: in `Index.handleChatWithVideo`, a 2xx captions
listing with zero caption tracks ends the acquisition silently — the
public timed-text endpoint (method 2) is never attempted — and in
`VideoChat.loadTranscript` a non-2xx answer from method 2 is followed by
no third method: the embed extraction is never invoked and the failure
toast is shown. -/
theorem pipelineFallbackCounterexample :
    envZeroTracksThen404.captions = FetchOutcome.resp 200 (some [])
    ∧ (chatAcquireTail envZeroTracksThen404).2.2 = false
    ∧ (chatAcquireTail envZeroTracksThen404).1 = none
    ∧ (loadTranscript [] (some "ytKey") envZeroTracksThen404).triedTimedtext = true
    ∧ (loadTranscript [] (some "ytKey") envZeroTracksThen404).triedEmbedExtract = false
    ∧ (loadTranscript [] (some "ytKey") envZeroTracksThen404).transcript = []
    ∧ (loadTranscript [] (some "ytKey") envZeroTracksThen404).toast = some LoadToast.failure := by
  refine ⟨rfl, rfl, rfl, rfl, rfl, rfl, rfl⟩

/-- C3 (amended): the XML normalizer yields exactly one segment per text
element — kept even when its text is empty — whose fields are the parsed
attributes; an absent or empty `start` attribute defaults the offset to 0
(while a present non-numeric one yields `NaN`, per the counterexample). -/
theorem xmlNormalizerAmended (doc : XmlDoc) (i : Nat) (h : i < doc.length) :
    (parseTranscriptXML doc).length = doc.length
    ∧ (parseTranscriptXML doc).getD i ⟨"", JsNum.nan, JsNum.nan⟩
        = { text := jsOrEmpty (doc.getD i ⟨none, none, none⟩).content
            duration := jsParseFloat (jsOrDefaultZero (doc.getD i ⟨none, none, none⟩).dur)
            offset := jsParseFloat (jsOrDefaultZero (doc.getD i ⟨none, none, none⟩).start) }
    ∧ ((doc.getD i ⟨none, none, none⟩).start = none →
        ((parseTranscriptXML doc).getD i ⟨"", JsNum.nan, JsNum.nan⟩).offset = JsNum.num 0)
    ∧ ((doc.getD i ⟨none, none, none⟩).start = some "" →
        ((parseTranscriptXML doc).getD i ⟨"", JsNum.nan, JsNum.nan⟩).offset = JsNum.num 0) := by
  have hlen : (parseTranscriptXML doc).length = doc.length := by
    simp [parseTranscriptXML]
  have hi2 : i < (parseTranscriptXML doc).length := by
    rw [hlen]
    exact h
  have hmap : (parseTranscriptXML doc).getD i ⟨"", JsNum.nan, JsNum.nan⟩
      = { text := jsOrEmpty (doc.getD i ⟨none, none, none⟩).content
          duration := jsParseFloat (jsOrDefaultZero (doc.getD i ⟨none, none, none⟩).dur)
          offset := jsParseFloat (jsOrDefaultZero (doc.getD i ⟨none, none, none⟩).start) } := by
    rw [List.getD_eq_getElem _ _ hi2, List.getD_eq_getElem _ _ h]
    simp [parseTranscriptXML]
  refine ⟨hlen, hmap, ?_, ?_⟩
  · intro hstart
    rw [hmap]
    simp only [hstart, jsOrDefaultZero]
    decide
  · intro hstart
    rw [hmap]
    simp only [hstart, jsOrDefaultZero]
    decide

/-- C3 witness: a one-element document with no attributes. -/
theorem xmlNormalizerAmendedWitness :
    ((parseTranscriptXML [⟨none, none, some "hi"⟩]).getD 0 ⟨"", JsNum.nan, JsNum.nan⟩).offset
      = JsNum.num 0 :=
  (xmlNormalizerAmended [⟨none, none, some "hi"⟩] 0 (by decide)).2.2.1 rfl

/-- C9: a non-2xx chat-completion response surfaces a toast whose text is a
function of the status code alone; the five specific statuses carry five
pairwise distinct messages, shown exactly as thrown, and every other
status gets the generic failure text. -/
theorem chatErrorMessages (st : ChatState) (video : VideoData) (k : String)
    (status : Nat) (body : Option String) (newId newId2 : String)
    (hin : jsTrimS st.input ≠ "") (hld : st.isLoading = false)
    (hk : jsTrimS k ≠ "") (hstatus : okStatus status = false) :
    (sendMessage st video (some k) (FetchOutcome.resp status body) newId newId2).2.2
        = some (chatCatchDescription (chatThrownMessage status))
    ∧ ([400, 401, 403, 429, 500].map fun s =>
        chatCatchDescription (chatThrownMessage s)).Pairwise (fun a b => ¬ a = b)
    ∧ (chatCatchDescription (chatThrownMessage 400) = chatThrownMessage 400
        ∧ chatCatchDescription (chatThrownMessage 401) = chatThrownMessage 401
        ∧ chatCatchDescription (chatThrownMessage 403) = chatThrownMessage 403
        ∧ chatCatchDescription (chatThrownMessage 429) = chatThrownMessage 429
        ∧ chatCatchDescription (chatThrownMessage 500) = chatThrownMessage 500)
    ∧ (status ≠ 400 → status ≠ 401 → status ≠ 403 → status ≠ 429 → status ≠ 500 →
        chatErrorBase status = "Failed to get AI response") := by
  refine ⟨?_, by decide, by decide, ?_⟩
  · simp [sendMessage, hin, hld, hk, hstatus]
  · intro h400 h401 h403 h429 h500
    simp [chatErrorBase, h400, h401, h403, h429, h500]

/-- C9 witness: a concrete teapot status. -/
theorem chatErrorMessagesWitness :
    (sendMessage ⟨[], "What is this video about", false, []⟩ ⟨"v1", "T", "th", "D", none⟩
        (some "gmKey") (FetchOutcome.resp 418 none) "1" "2").2.2
      = some (chatCatchDescription (chatThrownMessage 418)) :=
  (chatErrorMessages ⟨[], "What is this video about", false, []⟩ ⟨"v1", "T", "th", "D", none⟩
    "gmKey" 418 none "1" "2" (by decide) rfl (by decide) (by decide)).1

set_option maxRecDepth 100000 in
/-- C7: the posted chat request is independent of the visible message
history and is a single turn with a single part holding the prompt; the
prompt always embeds the title-and-description block; the transcript
section is appended exactly when the transcript is non-empty, with the
segment texts space-joined in sequence order. -/
theorem promptAssemblySpec (video : VideoData) (tr : List Segment)
    (msgs1 msgs2 : List ChatMessage) (input k : String)
    (env : FetchOutcome (Option String)) (a1 a2 b1 b2 : String)
    (hin : jsTrimS input ≠ "") (hk : jsTrimS k ≠ "") :
    (sendMessage ⟨msgs1, input, false, tr⟩ video (some k) env a1 a2).2.1
      = (sendMessage ⟨msgs2, input, false, tr⟩ video (some k) env b1 b2).2.1
    ∧ (sendMessage ⟨msgs1, input, false, tr⟩ video (some k) env a1 a2).2.1
      = some ⟨[⟨[⟨buildPrompt video tr (jsTrimS input)⟩]⟩]⟩
    ∧ (∃ pre post, buildPrompt video tr (jsTrimS input)
        = pre ++ ("YouTube Video: \"" ++ video.title ++ "\"\nDescription: "
            ++ video.description) ++ post)
    ∧ (tr ≠ [] → buildContext video tr
        = "YouTube Video: \"" ++ video.title ++ "\"\nDescription: " ++ video.description
          ++ "\n\nVideo Transcript: "
          ++ String.join (List.intersperse " " (tr.map Segment.text)))
    ∧ (tr = [] → buildContext video tr
        = "YouTube Video: \"" ++ video.title ++ "\"\nDescription: " ++ video.description) := by
  have hreq : ∀ (msgs : List ChatMessage) (c1 c2 : String),
      (sendMessage ⟨msgs, input, false, tr⟩ video (some k) env c1 c2).2.1
        = some ⟨[⟨[⟨buildPrompt video tr (jsTrimS input)⟩]⟩]⟩ := by
    intro msgs c1 c2
    cases env with
    | netError => simp [sendMessage, hin, hk]
    | resp status body =>
      by_cases hok : okStatus status = true
      · simp [sendMessage, hin, hk, hok]
      · simp [sendMessage, hin, hk, hok]
  refine ⟨(hreq msgs1 a1 a2).trans (hreq msgs2 b1 b2).symm, hreq msgs1 a1 a2, ?_, ?_, ?_⟩
  · refine ⟨"You are an AI assistant helping someone understand a YouTube video. \n\nContext:\n",
      ?_, ?_⟩
    · exact (if tr.length > 0 then
        "\n\nVideo Transcript: " ++ jsJoin " " (tr.map Segment.text) else "")
        ++ "\n\nUser Question: " ++ jsTrimS input
        ++ "\n\nPlease provide a helpful, accurate response based on the video content. "
        ++ "If the question is about specific details and you have transcript access, "
        ++ "use that information. If not, answer based on the title and description. "
        ++ "Be conversational and helpful."
    · by_cases htr : tr.length > 0
      · simp only [buildPrompt, buildContext, if_pos htr]
        ext1
        simp
      · simp only [buildPrompt, buildContext, if_neg htr]
        ext1
        simp
  · intro htr
    have hpos : tr.length > 0 := List.length_pos.mpr htr
    rw [← jsJoin_eq_intersperse]
    simp only [buildContext, if_pos hpos]
  · intro htr
    subst htr
    simp [buildContext]

/-- C7 witness: a concrete video, transcript and question. -/
theorem promptAssemblySpecWitness :
    (sendMessage ⟨[], "Q", false, [⟨"seg text", JsNum.num 0, JsNum.num 0⟩]⟩
        ⟨"v1", "T", "th", "D", none⟩ (some "g") FetchOutcome.netError "1" "2").2.1
      = some ⟨[⟨[⟨buildPrompt ⟨"v1", "T", "th", "D", none⟩
          [⟨"seg text", JsNum.num 0, JsNum.num 0⟩] (jsTrimS "Q")⟩]⟩]⟩ :=
  (promptAssemblySpec ⟨"v1", "T", "th", "D", none⟩ [⟨"seg text", JsNum.num 0, JsNum.num 0⟩]
    [] [] "Q" "g" FetchOutcome.netError "1" "2" "1" "2" (by decide) (by decide)).2.1

theorem splitLines_ne_nil (cs : List Char) : splitLines cs ≠ [] := by
  cases cs with
  | nil => simp [splitLines]
  | cons c rest =>
    simp only [splitLines]
    cases h : splitLines rest with
    | nil => simp
    | cons l ls =>
      by_cases hc : c = '\n' <;> simp [hc]

theorem splitLines_append (a b : List Char) :
    splitLines (a ++ '\n' :: b) = splitLines a ++ splitLines b := by
  induction a with
  | nil =>
    simp only [List.nil_append, splitLines]
    cases h : splitLines b with
    | nil => exact absurd h (splitLines_ne_nil b)
    | cons l ls => simp
  | cons c a ih =>
    simp only [List.cons_append, splitLines, List.append_eq]
    rw [ih]
    cases h : splitLines a with
    | nil => exact absurd h (splitLines_ne_nil a)
    | cons l ls =>
      by_cases hc : c = '\n' <;> simp [hc]

theorem nondecreasingOffsets_eq_chain :
    ∀ l : List Segment, nondecreasingOffsets l = chainLeB (l.map Segment.offset)
  | [] => rfl
  | [_] => rfl
  | a :: b :: t => by
    have ih := nondecreasingOffsets_eq_chain (b :: t)
    simp only [List.map] at ih
    simp only [nondecreasingOffsets, chainLeB, List.map]
    rw [ih]

theorem parseTranscriptXML_offsets (doc : XmlDoc) :
    (parseTranscriptXML doc).map Segment.offset = xmlStarts doc := by
  simp [parseTranscriptXML, xmlStarts, List.map_map, Function.comp]

/-- C8 (amended): both normalizers are compositional in the source payload
— they preserve the order in which the fragments appear and perform no
sorting — so the offsets are non-decreasing exactly when the source's
start values are; a source with decreasing starts (the counterexample)
propagates them verbatim. -/
theorem offsetsOrderAmended (d e doc : XmlDoc) (a b : List Char)
    (hmono : chainLeB (xmlStarts doc) = true) :
    parseTranscriptXML (d ++ e) = parseTranscriptXML d ++ parseTranscriptXML e
    ∧ (splitLines (a ++ '\n' :: b)).filterMap parseLine
        = (splitLines a).filterMap parseLine ++ (splitLines b).filterMap parseLine
    ∧ nondecreasingOffsets (parseTranscriptXML doc) = true := by
  refine ⟨by simp [parseTranscriptXML], ?_, ?_⟩
  · rw [splitLines_append, List.filterMap_append]
  · rw [nondecreasingOffsets_eq_chain, parseTranscriptXML_offsets]
    exact hmono

/-- C8 witness: a two-element document with non-decreasing (zero) starts,
plus the compositional split at concrete payloads. -/
theorem offsetsOrderAmendedWitness :
    nondecreasingOffsets (parseTranscriptXML
      [⟨none, none, some "a"⟩, ⟨none, none, some "b"⟩]) = true :=
  (offsetsOrderAmended [] [] [⟨none, none, some "a"⟩, ⟨none, none, some "b"⟩]
    [] [] (by decide)).2.2

theorem digitVal_le_of_isDigitB {c : Char} (h : isDigitB c = true) : digitVal c ≤ 9 := by
  simp only [isDigitB, Bool.and_eq_true, decide_eq_true_eq] at h
  simp only [digitVal]
  have h0 : ('0' : Char).toNat = 48 := rfl
  rw [h0]
  omega

theorem tsTail1_bounds {cs : List Char} {m s l : Nat}
    (h : tsTail1 cs = some (m, s, l)) : m ≤ 99 ∧ s ≤ 99 := by
  unfold tsTail1 at h
  split at h
  · rename_i d1 e1 e2 k rest
    split at h
    · rename_i hcond
      simp only [Bool.and_eq_true] at hcond
      obtain ⟨⟨⟨hd1, he1⟩, he2⟩, _⟩ := hcond
      have b1 := digitVal_le_of_isDigitB hd1
      have b2 := digitVal_le_of_isDigitB he1
      have b3 := digitVal_le_of_isDigitB he2
      injection h with h2
      injection h2 with hm h3
      injection h3 with hs _
      omega
    · exact absurd h (by simp)
  · exact absurd h (by simp)

theorem tsAt_bounds {cs : List Char} {m s l : Nat}
    (h : tsAt cs = some (m, s, l)) : m ≤ 99 ∧ s ≤ 99 := by
  unfold tsAt at h
  split at h
  · rename_i o rest
    split at h
    · split at h
      · rename_i d1 d2 e1 e2 k tail
        split at h
        · rename_i hcond
          simp only [Bool.and_eq_true] at hcond
          obtain ⟨⟨⟨⟨hd1, hd2⟩, he1⟩, he2⟩, _⟩ := hcond
          have b1 := digitVal_le_of_isDigitB hd1
          have b2 := digitVal_le_of_isDigitB hd2
          have b3 := digitVal_le_of_isDigitB he1
          have b4 := digitVal_le_of_isDigitB he2
          injection h with h2
          injection h2 with hm h3
          injection h3 with hs _
          omega
        · exact tsTail1_bounds h
      · exact tsTail1_bounds h
    · exact absurd h (by simp)
  · exact absurd h (by simp)

theorem findTs_bounds : ∀ {cs : List Char} {p m s l : Nat},
    findTs cs = some (p, m, s, l) → m ≤ 99 ∧ s ≤ 99 := by
  intro cs
  induction cs with
  | nil => intro p m s l h; exact absurd h (by simp [findTs])
  | cons c rest ih =>
    intro p m s l h
    unfold findTs at h
    split at h
    · rename_i m2 s2 l2 heq
      injection h with h2
      injection h2 with hp h3
      injection h3 with hm h4
      injection h4 with hs hl
      subst hm hs
      exact tsAt_bounds heq
    · split at h
      · rename_i p2 m2 s2 l2 heq
        injection h with h2
        injection h2 with hp h3
        injection h3 with hm h4
        injection h4 with hs hl
        subst hm hs
        exact ih heq
      · exact absurd h (by simp)

/-- C10: the plain-text parser recognises a timestamp only with one- or
two-digit minutes and exactly two-digit seconds, so every produced offset
is at most `99*60+99` seconds; `[100:00]` (three-digit minutes) and
`[1:5]` (one-digit seconds) lines are silently dropped. -/
theorem timestampDigitBounds (payload : String) (s : Segment)
    (hmem : s ∈ parsePlainLines payload) :
    (∃ mm ss : Nat, mm ≤ 99 ∧ ss ≤ 99
      ∧ s.offset = JsNum.num ((mm * 60 + ss : Nat) : ℚ) ∧ s.duration = JsNum.num 0)
    ∧ parsePlainLines "[100:00] text" = []
    ∧ parsePlainLines "[1:5] oops" = [] := by
  refine ⟨?_, by decide, by decide⟩
  obtain ⟨line, _, hline⟩ := List.mem_filterMap.mp hmem
  unfold parseLine at hline
  split at hline
  · exact absurd hline (by simp)
  · rename_i p m sec l heq
    dsimp only at hline
    split at hline
    · exact absurd hline (by simp)
    · injection hline with hs
      refine ⟨m, sec, (findTs_bounds heq).1, (findTs_bounds heq).2, ?_, ?_⟩
      · rw [← hs]
      · rw [← hs]

/-- C10 witness: a two-digit-seconds line within bounds. -/
theorem timestampDigitBoundsWitness :
    ∃ mm ss : Nat, mm ≤ 99 ∧ ss ≤ 99
      ∧ (Segment.mk "ok" (JsNum.num 0) (JsNum.num 30)).offset
          = JsNum.num ((mm * 60 + ss : Nat) : ℚ)
      ∧ (Segment.mk "ok" (JsNum.num 0) (JsNum.num 30)).duration = JsNum.num 0 :=
  (timestampDigitBounds "[0:30] ok" ⟨"ok", JsNum.num 0, JsNum.num 30⟩ (by decide)).1

/-- C2 (amended): acquisition is split across three call sites rather than
one three-method pipeline.  In the chat screen's `loadTranscript`, a 2xx
captions listing with zero tracks falls through to the timed-text method,
a full method-1 success short-circuits it, and a non-2xx timed-text answer
leaves the transcript empty with a failure notification — no third method
exists there.  In `Index.handleChatWithVideo`, zero caption tracks ends
the attempt without trying the timed-text method, which runs only when a
method-1 fetch rejects.  The player-embed extraction exists only in
`VideoPlayer.fetchTranscript`, after its timed-text answer is non-2xx, and
always yields nothing.  No path raises an error to the caller. -/
theorem pipelineFallbackAmended (env : AcqEnv) (k : String) (st st2 : Nat)
    (body : String) (hk : k ≠ "") :
    (env.captions = FetchOutcome.resp st (some []) → okStatus st = true →
      (loadTranscript [] (some k) env).triedCaptions = true
      ∧ (loadTranscript [] (some k) env).triedTimedtext = true)
    ∧ (env.captions = FetchOutcome.resp st (some []) → okStatus st = true →
        env.timedtext = FetchOutcome.resp st2 body → okStatus st2 = false →
        (loadTranscript [] (some k) env).transcript = []
        ∧ (loadTranscript [] (some k) env).toast = some LoadToast.failure
        ∧ (loadTranscript [] (some k) env).triedEmbedExtract = false)
    ∧ (∀ ids st3 body3, env.captions = FetchOutcome.resp st (some ids) → ids ≠ [] →
        okStatus st = true → env.track = FetchOutcome.resp st3 body3 →
        okStatus st3 = true →
        (loadTranscript [] (some k) env).transcript = parseTranscriptText env.dp body3
        ∧ (loadTranscript [] (some k) env).triedTimedtext = false)
    ∧ (env.captions = FetchOutcome.resp st (some []) → okStatus st = true →
        (chatAcquireTail env).2.2 = false ∧ (chatAcquireTail env).1 = none)
    ∧ (env.captions = FetchOutcome.netError → (chatAcquireTail env).2.2 = true)
    ∧ (∀ (hasIframe : Bool) (dp2 : String → XmlDoc), okStatus st2 = false →
        (fetchTranscript hasIframe (FetchOutcome.resp st2 body) dp2).triedTimedtext = true
        ∧ (fetchTranscript hasIframe (FetchOutcome.resp st2 body) dp2).triedEmbedExtract = true
        ∧ (fetchTranscript hasIframe (FetchOutcome.resp st2 body) dp2).transcript = none
        ∧ (fetchTranscript hasIframe (FetchOutcome.resp st2 body) dp2).toast
            = some LoadToast.failure) := by
  obtain ⟨cap, trk, tt, dp⟩ := env
  refine ⟨?_, ?_, ?_, ?_, ?_, ?_⟩
  · intro hcap hok
    simp only at hcap
    subst hcap
    cases tt with
    | netError => simp [loadTranscript, hk, hok]
    | resp st4 body4 =>
      by_cases h4 : okStatus st4 = true
      · simp [loadTranscript, hk, hok, h4]
      · simp [loadTranscript, hk, hok, h4]
  · intro hcap hok htt h2
    simp only at hcap htt
    subst hcap
    subst htt
    simp [loadTranscript, hk, hok, h2]
  · intro ids st3 body3 hcap hids hok htrk h3
    simp only at hcap htrk
    subst hcap
    subst htrk
    cases ids with
    | nil => exact absurd rfl hids
    | cons c cs => simp [loadTranscript, hk, hok, h3]
  · intro hcap hok
    simp only at hcap
    subst hcap
    simp [chatAcquireTail, hok]
  · intro hcap
    simp only at hcap
    subst hcap
    cases tt with
    | netError => simp [chatAcquireTail]
    | resp st4 body4 => simp [chatAcquireTail]
  · intro hasIframe dp2 h2
    simp [fetchTranscript, h2, extractTranscriptFromPlayer]

/-- C2 witness: zero caption tracks with a 404 timed-text answer in
`loadTranscript` leaves an empty transcript with the failure toast. -/
theorem pipelineFallbackAmendedWitness :
    (loadTranscript [] (some "ytKey") envZeroTracksThen404).transcript = []
    ∧ (loadTranscript [] (some "ytKey") envZeroTracksThen404).toast = some LoadToast.failure
    ∧ (loadTranscript [] (some "ytKey") envZeroTracksThen404).triedEmbedExtract = false :=
  (pipelineFallbackAmended envZeroTracksThen404 "ytKey" 200 404 "not found"
    (by decide)).2.1 rfl rfl rfl rfl

theorem findTs_eq_firstIndex (cs : List Char) :
    findTs cs = (tsFirstIndex cs).bind fun i => (tsAt (cs.drop i)).map fun x => (i, x) := by
  induction cs with
  | nil => simp [findTs, tsFirstIndex]
  | cons c rest ih =>
    unfold findTs tsFirstIndex
    rw [List.length_cons, List.range_succ_eq_map, List.find?_cons]
    cases hat : tsAt (c :: rest) with
    | some x =>
      obtain ⟨m, s, l⟩ := x
      simp [hat]
    | none =>
      have hp0 : ((tsAt ((c :: rest).drop 0)).isSome = true) = False := by
        simp [hat]
      simp only [List.drop_zero, hat, Option.isSome_none]
      rw [List.find?_map]
      have hcomp : ((fun i => (tsAt ((c :: rest).drop i)).isSome) ∘ Nat.succ)
          = fun i => (tsAt (rest.drop i)).isSome := by
        funext i
        simp [Function.comp, List.drop_succ_cons]
      rw [hcomp]
      rw [ih]
      have hfold : List.find? (fun i => (tsAt (rest.drop i)).isSome) (List.range rest.length)
          = tsFirstIndex rest := rfl
      rw [hfold]
      cases hfi : tsFirstIndex rest with
      | none => simp
      | some j =>
        cases hat2 : tsAt (rest.drop j) with
        | none => simp [hat2, List.drop_succ_cons]
        | some y =>
          obtain ⟨m2, s2, l2⟩ := y
          simp [hat2, List.drop_succ_cons]

/-- C4 (amended): per line, the timestamp is recognised at the first
position anywhere in the line (not only leading) where an opening `[` or
`(` is followed by one or two digits, a colon, exactly two digits and a
closing `]` or `)` — the delimiters need not pair — and the text is the
line with that first occurrence and the whitespace after it removed, then
trimmed; the claim's own examples hold, and the two amended behaviours
(mismatched delimiters, mid-line match with the surrounding text merged)
are exhibited. -/
theorem textTimestampAmended :
    (∀ cs : List Char, parseLine cs = amendedParseLine cs)
    ∧ parsePlainLines "[1:05] hello there"
        = [{ text := "hello there", duration := JsNum.num 0, offset := JsNum.num 65 }]
    ∧ parsePlainLines "no timestamp here" = []
    ∧ parsePlainLines "[1:05]   " = []
    ∧ parsePlainLines "[1:05) hi"
        = [{ text := "hi", duration := JsNum.num 0, offset := JsNum.num 65 }]
    ∧ parsePlainLines "say [1:05] hi"
        = [{ text := "say hi", duration := JsNum.num 0, offset := JsNum.num 65 }] := by
  refine ⟨?_, by decide, by decide, by decide, by decide, by decide⟩
  intro cs
  unfold parseLine amendedParseLine stripFirstTs
  rw [findTs_eq_firstIndex]
  cases hfi : tsFirstIndex cs with
  | none => simp
  | some i =>
    cases hat : tsAt (cs.drop i) with
    | none => simp [hat]
    | some x =>
      obtain ⟨m, s, l⟩ := x
      simp [hat]
